import Mathlib

/-!
Verification development for the screenshot calorie analyzer.

The definitions below are a shallow embedding of the Python sources:
  - `gemini_calorie_analyzer.py` (reply extraction, batch analysis, report),
  - `advanced_screenshot.py` (drift-corrected capture loop, sequence counter),
  - `screenshot_taker.py` (filename construction),
  - `screenshot_with_gemini.py` (coordinator stop path).

Python values parsed out of JSON are modelled by the inductive `JValue`;
Python expressions that may raise are modelled as `Option`/`Except`
computations whose `none`/`error` outcome corresponds to the raised
exception.  Non-integer JSON numbers are modelled as exact decimals
(mantissa and power of ten); the claims under study only involve
integer values.
-/

namespace CalorieApp

/-- A Python value as produced by `json.loads`.  `float m e` stands for the
decimal `m * 10 ^ e`; `nan` and `inf` model the non-standard constants that
Python's parser accepts by default. -/
inductive JValue where
  | null
  | bool (b : Bool)
  | int (n : Int)
  | float (mantissa : Int) (exp10 : Int)
  | nan
  | inf (neg : Bool)
  | str (s : String)
  | arr (elems : List JValue)
  | obj (fields : List (String × JValue))
  deriving Repr

/-- Whitespace characters skipped by Python's JSON parser. -/
def isJsonWs (c : Char) : Bool :=
  c = ' ' || c = '\t' || c = '\n' || c = '\r'

/-- Drop leading JSON whitespace. -/
def skipWs : List Char → List Char
  | [] => []
  | c :: rest => if isJsonWs c then skipWs rest else c :: rest

/-- Hexadecimal digit value, for the \uXXXX string escape. -/
def hexVal (c : Char) : Option Nat :=
  if '0' ≤ c ∧ c ≤ '9' then some (c.toNat - 48)
  else if 'a' ≤ c ∧ c ≤ 'f' then some (c.toNat - 87)
  else if 'A' ≤ c ∧ c ≤ 'F' then some (c.toNat - 70)
  else none

/-- Parse the body of a JSON string after the opening quote.  Bare control
characters are rejected (Python's strict mode); the standard escapes are
translated.  A \uXXXX escape becomes the character with that code point
(surrogate pairing is not modelled; no claim involves it). -/
def parseStrChars : List Char → Option (List Char × List Char)
  | [] => none
  | '"' :: rest => some ([], rest)
  | '\\' :: esc =>
    match esc with
    | '"' :: r => (parseStrChars r).map (fun p => ('"' :: p.1, p.2))
    | '\\' :: r => (parseStrChars r).map (fun p => ('\\' :: p.1, p.2))
    | '/' :: r => (parseStrChars r).map (fun p => ('/' :: p.1, p.2))
    | 'b' :: r => (parseStrChars r).map (fun p => ('\x08' :: p.1, p.2))
    | 'f' :: r => (parseStrChars r).map (fun p => ('\x0c' :: p.1, p.2))
    | 'n' :: r => (parseStrChars r).map (fun p => ('\n' :: p.1, p.2))
    | 'r' :: r => (parseStrChars r).map (fun p => ('\r' :: p.1, p.2))
    | 't' :: r => (parseStrChars r).map (fun p => ('\t' :: p.1, p.2))
    | 'u' :: h1 :: h2 :: h3 :: h4 :: r =>
      match hexVal h1, hexVal h2, hexVal h3, hexVal h4 with
      | some a, some b, some c, some d =>
        (parseStrChars r).map
          (fun p => (Char.ofNat (((a * 16 + b) * 16 + c) * 16 + d) :: p.1, p.2))
      | _, _, _, _ => none
    | _ => none
  | c :: rest =>
    if c.toNat < 32 then none
    else (parseStrChars rest).map (fun p => (c :: p.1, p.2))

/-- Digit test for number parsing. -/
def isDigit (c : Char) : Bool := '0' ≤ c && c ≤ '9'

/-- Numeric value of a list of decimal digit characters. -/
def digitsToNat (ds : List Char) : Nat :=
  ds.foldl (fun acc c => acc * 10 + (c.toNat - 48)) 0

/-- Parse the integer-part digits of a JSON number: a single 0, or a nonzero
digit followed by arbitrary digits (JSON forbids leading zeros). -/
def parseIntDigits (cs : List Char) : Option (List Char × List Char) :=
  match cs with
  | '0' :: rest => some (['0'], rest)
  | c :: rest =>
    if isDigit c then some (c :: rest.takeWhile isDigit, rest.dropWhile isDigit)
    else none
  | [] => none

/-- Parse a JSON number: integers become `JValue.int`; numbers with a
fraction or exponent become the exact decimal `JValue.float`. -/
def parseNumber (cs : List Char) : Option (JValue × List Char) := do
  let (neg, cs1) := match cs with
    | '-' :: rest => (true, rest)
    | _ => (false, cs)
  let (intDs, cs2) ← parseIntDigits cs1
  let (fracDs, cs3) := match cs2 with
    | '.' :: rest =>
      let ds := rest.takeWhile isDigit
      if ds = [] then ([], cs2) else (ds, rest.dropWhile isDigit)
    | _ => ([], cs2)
  let hadFrac := decide (fracDs ≠ [])
  let (expPart, cs4) : Option (Int) × List Char := match cs3 with
    | 'e' :: rest | 'E' :: rest =>
      let (eneg, r1) := match rest with
        | '+' :: r => (false, r)
        | '-' :: r => (true, r)
        | _ => (false, rest)
      let ds := r1.takeWhile isDigit
      if ds = [] then (none, cs3)
      else ((some (if eneg then -(digitsToNat ds : Int) else (digitsToNat ds : Int))),
            r1.dropWhile isDigit)
    | _ => (none, cs3)
  let mag : Nat := digitsToNat (intDs ++ fracDs)
  let mantissa : Int := if neg then -(mag : Int) else (mag : Int)
  match expPart, hadFrac with
  | none, false => pure (JValue.int mantissa, cs4)
  | none, true => pure (JValue.float mantissa (-(fracDs.length : Int)), cs4)
  | some e, _ => pure (JValue.float mantissa (e - (fracDs.length : Int)), cs4)

mutual

/-- Parse one JSON value (leading whitespace allowed), fuel-bounded.
Mirrors `json.loads` on the JSON grammar plus Python's default
`NaN`/`Infinity`/`-Infinity` constants. -/
def parseValue : Nat → List Char → Option (JValue × List Char)
  | 0, _ => none
  | fuel + 1, cs =>
    match skipWs cs with
    | '{' :: rest =>
      match skipWs rest with
      | '}' :: r => some (JValue.obj [], r)
      | cs2 => parseObjBody fuel cs2 []
    | '[' :: rest =>
      match skipWs rest with
      | ']' :: r => some (JValue.arr [], r)
      | cs2 => parseArrBody fuel cs2 []
    | '"' :: rest =>
      (parseStrChars rest).map (fun p => (JValue.str (String.mk p.1), p.2))
    | 't' :: 'r' :: 'u' :: 'e' :: rest => some (JValue.bool true, rest)
    | 'f' :: 'a' :: 'l' :: 's' :: 'e' :: rest => some (JValue.bool false, rest)
    | 'n' :: 'u' :: 'l' :: 'l' :: rest => some (JValue.null, rest)
    | 'N' :: 'a' :: 'N' :: rest => some (JValue.nan, rest)
    | 'I' :: 'n' :: 'f' :: 'i' :: 'n' :: 'i' :: 't' :: 'y' :: rest =>
      some (JValue.inf false, rest)
    | '-' :: 'I' :: 'n' :: 'f' :: 'i' :: 'n' :: 'i' :: 't' :: 'y' :: rest =>
      some (JValue.inf true, rest)
    | cs1 => parseNumber cs1

/-- Parse the members of an object, positioned at the start of a member
(key expected next); `acc` holds the members already parsed. -/
def parseObjBody : Nat → List Char → List (String × JValue) →
    Option (JValue × List Char)
  | 0, _, _ => none
  | fuel + 1, cs, acc =>
    match cs with
    | '"' :: rest => do
      let (keyChars, r1) ← parseStrChars rest
      match skipWs r1 with
      | ':' :: r2 => do
        let (v, r3) ← parseValue fuel r2
        let member := (String.mk keyChars, v)
        match skipWs r3 with
        | ',' :: r4 => parseObjBody fuel (skipWs r4) (acc ++ [member])
        | '}' :: r4 => some (JValue.obj (acc ++ [member]), r4)
        | _ => none
      | _ => none
    | _ => none

/-- Parse the elements of an array, positioned at the start of an element. -/
def parseArrBody : Nat → List Char → List JValue →
    Option (JValue × List Char)
  | 0, _, _ => none
  | fuel + 1, cs, acc => do
    let (v, r1) ← parseValue fuel cs
    match skipWs r1 with
    | ',' :: r2 => parseArrBody fuel r2 (acc ++ [v])
    | ']' :: r2 => some (JValue.arr (acc ++ [v]), r2)
    | _ => none

end

/-- Model of `json.loads`: parse one value and require only whitespace after
it.  The fuel `2 * length + 2` dominates the parser's call depth, every two
nested calls consuming at least one character. -/
def jsonParse (s : String) : Option JValue :=
  match parseValue (2 * s.length + 2) s.data with
  | some (v, rest) => if skipWs rest = [] then some v else none
  | none => none

/-! ## Python dictionary and value operations used by the extraction step -/

/-- Key constants appearing in `analyze_screenshot`'s reply processing. -/
def kFoodDetected : String := "food_detected"

def kFoodItems : String := "food_items"

def kTotalCalories : String := "total_calories"

def kName : String := "name"

def kCalories : String := "calories"

/-- Lookup in a dict built by `json.loads` from a member list: on duplicate
keys the last binding wins, as in Python. -/
def dictGet (fields : List (String × JValue)) (key : String) : Option JValue :=
  ((fields.filter (fun kv => kv.1 == key)).getLast?).map (fun kv => kv.2)

/-- Python `dict.get(key, default)`. -/
def dictGetD (fields : List (String × JValue)) (key : String) (dflt : JValue) :
    JValue :=
  (dictGet fields key).getD dflt

/-- Python truthiness of a JSON-derived value (`if value:`). -/
def truthy : JValue → Bool
  | JValue.null => false
  | JValue.bool b => b
  | JValue.int n => n != 0
  | JValue.float m _ => m != 0
  | JValue.nan => true
  | JValue.inf _ => true
  | JValue.str s => s != ""
  | JValue.arr l => !l.isEmpty
  | JValue.obj f => !f.isEmpty

/-- The keys of a Python dict built from `fields`, in insertion order with
duplicates collapsed to their first occurrence. -/
def dictKeys (fields : List (String × JValue)) : List String :=
  fields.foldl (fun acc kv => if acc.contains kv.1 then acc else acc ++ [kv.1]) []

/-- Python iteration `for item in v`: lists yield elements, dicts yield keys,
strings yield one-character strings; other values raise `TypeError` (`none`). -/
def pyIter : JValue → Option (List JValue)
  | JValue.arr l => some l
  | JValue.obj f => some ((dictKeys f).map JValue.str)
  | JValue.str s => some (s.data.map (fun c => JValue.str (String.mk [c])))
  | _ => none

/-- Python subscript `v[key]` with a string key: defined only on dicts, and
only when the key is present (`KeyError`/`TypeError` otherwise). -/
def pySubscr (v : JValue) (key : String) : Option JValue :=
  match v with
  | JValue.obj f => dictGet f key
  | _ => none

/-! ## The regex span and the extraction step -/

/-- Index of the last occurrence of `c` in `cs`. -/
def lastIdxOf (c : Char) (cs : List Char) : Option Nat :=
  ((List.range cs.length).filter (fun i => cs.get? i == some c)).getLast?

/-- Index of the first occurrence of `c` in `cs` strictly before `j`. -/
def firstIdxBefore (c : Char) (cs : List Char) (j : Nat) : Option Nat :=
  ((List.range cs.length).filter (fun i => cs.get? i == some c && i < j)).head?

/-- The span matched by the greedy DOTALL search for an opening brace,
arbitrary characters, and a closing brace: it runs from the first opening
brace that precedes the last closing brace through that last closing brace;
`none` when the pattern does not match. -/
def braceSpan (s : String) : Option String :=
  match lastIdxOf '}' s.data with
  | none => none
  | some j =>
    match firstIdxBefore '{' s.data j with
    | none => none
    | some i => some (String.mk ((s.data.drop i).take (j - i + 1)))

/-- Status field of the result record. -/
inductive Status where
  | success
  | error
  deriving Repr, DecidableEq

/-- The result record returned by `analyze_screenshot` (its reply-processing
step): the Python dict `{filename, calories, food_items, detailed_items,
status, error?}`.  `calories` and `detailed_items` carry whatever value the
parsed payload supplied. -/
structure PyResult where
  filename : String
  calories : JValue
  food_items : List JValue
  detailed_items : JValue
  status : Status
  errorDetail : Option String
  deriving Repr

/-- The no-food result returned by both the regex-fallback path and the
falsy-`food_detected` path. -/
def canonicalResult (fname : String) : PyResult :=
  { filename := fname
    calories := JValue.int 0
    food_items := []
    detailed_items := JValue.arr []
    status := Status.success
    errorDetail := none }

/-- The result built by the `except` handler of `analyze_screenshot`. -/
def errorResult (fname msg : String) : PyResult :=
  { filename := fname
    calories := JValue.int 0
    food_items := []
    detailed_items := JValue.arr []
    status := Status.error
    errorDetail := some msg }

/-- Subscript every element of a list by `key`, failing on the first
element whose subscript raises. -/
def subscrAll (key : String) : List JValue → Option (List JValue)
  | [] => some []
  | it :: rest => do
    let v ← pySubscr it key
    let vs ← subscrAll key rest
    pure (v :: vs)

/-- The list comprehension `[item[kName] for item in food_items]`:
iterate the value and subscript each element; `none` models the raised
`TypeError`/`KeyError`. -/
def extractNames (items : JValue) : Option (List JValue) := do
  let elems ← pyIter items
  subscrAll kName elems

/-- Exception tokens standing for the `str(e)` detail of the enclosing
handler; only presence of a detail matters to the claims. -/
def msgJsonDecode : String := "JSONDecodeError"

def msgItemAccess : String := "TypeError/KeyError in food_items"

def msgUnreachable : String := "non-object payload"

/-- The reply-extraction step of `GeminiCalorieAnalyzer.analyze_screenshot`
(lines 100-143): search for the brace span, `json.loads` it (falling back to
the literal no-food payload when the pattern is absent), then branch on
`food_detected`.  Any exception raised inside this region is caught by the
function's `except` handler, which yields `errorResult`. -/
def extract (fname : String) (result_text : String) : PyResult :=
  match braceSpan result_text with
  | none => canonicalResult fname
  | some span =>
    match jsonParse span with
    | none => errorResult fname msgJsonDecode
    | some (JValue.obj fields) =>
      if truthy (dictGetD fields kFoodDetected (JValue.bool false)) then
        let food_items := dictGetD fields kFoodItems (JValue.arr [])
        let total := dictGetD fields kTotalCalories (JValue.int 0)
        match extractNames food_items with
        | some names =>
          { filename := fname
            calories := total
            food_items := names
            detailed_items := food_items
            status := Status.success
            errorDetail := none }
        | none => errorResult fname msgItemAccess
      else canonicalResult fname
    | some _ => errorResult fname msgUnreachable

/-- Whether the reply reports detected food: the condition of the `if` in the
extraction step (false as well when the span is absent or unparseable, where
the code takes the no-food or error path). -/
def foodDetected (result_text : String) : Bool :=
  match braceSpan result_text with
  | none => false
  | some span =>
    match jsonParse span with
    | some (JValue.obj fields) =>
      truthy (dictGetD fields kFoodDetected (JValue.bool false))
    | _ => false

/-! ## Batch analysis (`analyze_all_screenshots`) and the calorie report -/

/-- Python comparison `value > 0`: defined on numbers and booleans, a
`TypeError` (`none`) on other values. -/
def pyGtZero : JValue → Option Bool
  | JValue.int n => some (decide (0 < n))
  | JValue.float m _ => some (decide (0 < m))
  | JValue.bool b => some b
  | JValue.nan => some false
  | JValue.inf neg => some (!neg)
  | _ => none

/-- Whether a value is a Python string (required by `", ".join`). -/
def isStr : JValue → Bool
  | JValue.str _ => true
  | _ => false

/-- A value as an exact decimal `(mantissa, exp10)`, for addition; booleans
coerce to integers as in Python. -/
def toDec : JValue → Option (Int × Int)
  | JValue.int n => some (n, 0)
  | JValue.float m e => some (m, e)
  | JValue.bool b => some (if b then 1 else 0, 0)
  | _ => none

/-- Exact addition of decimals. -/
def decAdd (a b : Int × Int) : Int × Int :=
  let e := min a.2 b.2
  (a.1 * 10 ^ (a.2 - e).toNat + b.1 * 10 ^ (b.2 - e).toNat, e)

/-- Python `a + b` on JSON-derived numbers: `int + int` stays an integer,
any float operand makes the result a float; non-numeric operands raise.
(The non-finite constants are not given an arithmetic here: no claim adds
them.) -/
def pyAdd (a b : JValue) : Option JValue :=
  match a, b with
  | JValue.int m, JValue.int n => some (JValue.int (m + n))
  | JValue.int m, JValue.bool c => some (JValue.int (m + if c then 1 else 0))
  | JValue.bool c, JValue.int n => some (JValue.int ((if c then 1 else 0) + n))
  | JValue.bool c, JValue.bool d =>
    some (JValue.int ((if c then 1 else 0) + if d then 1 else 0))
  | _, _ => do
    let da ← toDec a
    let db ← toDec b
    let s := decAdd da db
    pure (JValue.float s.1 s.2)

/-- The per-result printing done inside the batch loop of
`analyze_all_screenshots` (lines 163-172): when `calories > 0` it joins the
food names and prints each detailed item's name and calories.  The value is
`Except.error` exactly when that printing raises (`TypeError` from the
comparison or the join, `TypeError`/`KeyError` from the detail loop) —
such an exception escapes the batch loop, which has no handler. -/
def printCheck (r : PyResult) : Except String Unit :=
  match pyGtZero r.calories with
  | none => Except.error msgItemAccess
  | some false => Except.ok ()
  | some true =>
    if r.food_items.all isStr then
      if truthy r.detailed_items then
        match pyIter r.detailed_items with
        | none => Except.error msgItemAccess
        | some elems =>
          if elems.all
              (fun it => (pySubscr it kName).isSome && (pySubscr it kCalories).isSome)
          then Except.ok ()
          else Except.error msgItemAccess
      else Except.ok ()
    else Except.error msgItemAccess

/-- One image's analysis: the external call's outcome is an oracle input —
either the raw reply text, or the exception it raised.  A raised exception
is caught by `analyze_screenshot`'s handler and becomes the error record. -/
def analyze_one (fname : String) (reply : Except String String) : PyResult :=
  match reply with
  | Except.error e => errorResult fname e
  | Except.ok text => extract fname text

/-- The batch loop of `analyze_all_screenshots`: analyze each image in
order, print its result, and collect the records; an exception raised by the
printing step aborts the whole batch (the function has no handler). -/
def analyze_all : List (String × Except String String) →
    Except String (List PyResult)
  | [] => Except.ok []
  | (fname, reply) :: rest =>
    let r := analyze_one fname reply
    match printCheck r with
    | Except.error e => Except.error e
    | Except.ok _ =>
      match analyze_all rest with
      | Except.error e => Except.error e
      | Except.ok l => Except.ok (r :: l)

/-- The generator sum `sum(r['calories'] for r in results)` starting from
accumulator `acc`. -/
def sumCalories : List PyResult → JValue → Option JValue
  | [], acc => some acc
  | r :: rest, acc => do
    let acc2 ← pyAdd acc r.calories
    sumCalories rest acc2

/-- The generator count `sum(1 for r in results if r['calories'] > 0)`. -/
def countFood : List PyResult → Option Nat
  | [] => some 0
  | r :: rest => do
    let b ← pyGtZero r.calories
    let n ← countFood rest
    pure (if b then n + 1 else n)

/-- The summary computed by `print_calorie_report` (and by the analysis
thread of `screenshot_with_gemini.py`): the number of results, the number of
results with positive calories, and the total calories.  A type error in
the sum or a comparison is a raised exception (`none`). -/
def print_calorie_report (results : List PyResult) :
    Option (Nat × Nat × JValue) := do
  let total ← sumCalories results (JValue.int 0)
  let food ← countFood results
  pure (results.length, food, total)

/-! ## Capture scheduler (`advanced_screenshot.py`) -/

/-- Python `a % b` on floats (here exact rationals), for `b ≠ 0`:
`a - b * floor (a / b)`. -/
def pyFmod (a b : ℚ) : ℚ := a - b * ⌊a / b⌋

/-- The sleep computed after each capture in `AdvancedScreenshotTaker.run`:
`max(0, interval - elapsed % interval)` where `elapsed` is measured from the
fixed reference start time. -/
def sleep_time (interval elapsed : ℚ) : ℚ :=
  max 0 (interval - pyFmod elapsed interval)

/-- One tick of `AdvancedScreenshotTaker.take_screenshot`, given whether the
external capture-and-save succeeded: on success the file carries the current
counter value and the counter advances; on failure the exception is caught,
`None` is returned and the counter is untouched. -/
def take_screenshot (counter : Nat) (captureOk : Bool) : Nat × Option Nat :=
  if captureOk then (counter + 1, some counter) else (counter, none)

/-- The capture loop run over a list of tick outcomes: the sequence numbers
carried by the successfully saved files, in capture order. -/
def runTicks (counter : Nat) : List Bool → List Nat
  | [] => []
  | ok :: rest =>
    match take_screenshot counter ok with
    | (c2, some s) => s :: runTicks c2 rest
    | (c2, none) => runTicks c2 rest

/-! ## Coordinator stop path (`screenshot_with_gemini.py`) -/

/-- Observable coordinator state: the shared stop event, whether each
scheduler thread has returned, whether final counts were reported, and
whether the process has exited. -/
structure CoordState where
  stop_event : Bool
  screenshot_thread_done : Bool
  analysis_thread_done : Bool
  final_counts_reported : Bool
  process_exited : Bool
  deriving Repr, DecidableEq

/-- The `signal_handler` installed by `ScreenshotWithGemini.run` (lines
91-94): print a stop message, set the stop event, and call `sys.exit(0)` —
the daemon threads are not joined and no final counts are printed. -/
def signal_handler (s : CoordState) : CoordState :=
  { s with stop_event := true, process_exited := true }

/-! ## Filenames (`screenshot_taker.py`) and the directory listing -/

/-- The character of a decimal digit; only ever applied below ten. -/
def digitChar : Nat → Char
  | 0 => '0'
  | 1 => '1'
  | 2 => '2'
  | 3 => '3'
  | 4 => '4'
  | 5 => '5'
  | 6 => '6'
  | 7 => '7'
  | 8 => '8'
  | _ => '9'

/-- Decimal digit characters of `n`, most significant first, fuel-bounded
(structural recursion so that concrete values reduce). -/
def natDigitsAux : Nat → Nat → List Char
  | 0, _ => []
  | fuel + 1, n =>
    if n < 10 then [digitChar n]
    else natDigitsAux fuel (n / 10) ++ [digitChar (n % 10)]

/-- Python `str(n)` for a natural number. -/
def natDigits (n : Nat) : List Char := natDigitsAux (n + 1) n

/-- The screenshot filename `f"PREFIX_TIMESTAMP_COUNTER.FORMAT"` built by
`take_screenshot`. -/
def mkFilename (pfx ts : String) (seq : Nat) (ext : String) : String :=
  pfx ++ String.mk ['_'] ++ ts ++ String.mk ['_'] ++ String.mk (natDigits seq)
    ++ String.mk ['.'] ++ ext

/-- Insertion of a string into a sorted list, for the model of Python's
`sorted` used by `get_screenshots`: `x` goes in front of the first entry
not lexicographically below it.  (The comparison is on the character lists,
which is exactly the `String` order.) -/
def insertSorted (x : String) : List String → List String
  | [] => [x]
  | y :: ys => if y.data < x.data then y :: insertSorted x ys else x :: y :: ys

/-- Model of `sorted(screenshot_files)`: the listing in ascending
lexicographic filename order, as used by batch analysis. -/
def pySorted (l : List String) : List String := l.foldr insertSorted []

/-! ## Concrete sample inputs used by witnesses and counterexamples -/

/-- A filename used throughout the concrete instances. -/
def imgName : String := "shot.png"

def nameSoup : String := "soup"

/-- A reply with no brace span at all (spec literal case 2). -/
def textNoFood : String := "I see no food here."

/-- A reply whose brace span exists but is not valid JSON. -/
def textBadSpan : String := "\x7bnot valid json\x7d"

/-- The spec's literal case 3: an item missing its calories field. -/
def textSoup : String :=
  "\x7b\"food_detected\": true, \"food_items\":[\x7b\"name\":\"soup\"\x7d], \"total_calories\":120\x7d"

/-- The fields of the payload parsed out of `textSoup`. -/
def soupFields : List (String × JValue) :=
  [(kFoodDetected, JValue.bool true),
   (kFoodItems, JValue.arr [JValue.obj [(kName, JValue.str nameSoup)]]),
   (kTotalCalories, JValue.int 120)]

/-- A reply carrying negative calorie values. -/
def textNegative : String :=
  "\x7b\"food_detected\": true, \"food_items\": [\x7b\"name\": \"mystery\", \"calories\": -50\x7d], \"total_calories\": -50\x7d"

/-- The fields of the payload parsed out of `textNegative`. -/
def negFields : List (String × JValue) :=
  [(kFoodDetected, JValue.bool true),
   (kFoodItems,
    JValue.arr [JValue.obj [(kName, JValue.str "mystery"),
                            (kCalories, JValue.int (-50))]]),
   (kTotalCalories, JValue.int (-50))]

/-- A reply reporting 120 calories. -/
def text120 : String :=
  "\x7b\"food_detected\": true, \"food_items\":[\x7b\"name\":\"rice\",\"calories\":120\x7d], \"total_calories\":120\x7d"

/-- A reply reporting 300 calories. -/
def text300 : String :=
  "\x7b\"food_detected\": true, \"food_items\":[\x7b\"name\":\"steak\",\"calories\":300\x7d], \"total_calories\":300\x7d"

/-- The four-result batch of the aggregation claim: calories 0, 120 and 300,
and one analysis failure. -/
def sampleBatchResults : List PyResult :=
  [extract imgName textNoFood,
   extract imgName text120,
   extract imgName text300,
   errorResult imgName ("quota exceeded")]

/-- A coordinator state with both scheduler threads still running. -/
def runningState : CoordState :=
  { stop_event := false
    screenshot_thread_done := false
    analysis_thread_done := false
    final_counts_reported := false
    process_exited := false }

/-- The fixed prefix used by `ScreenshotTaker`. -/
def pfxShot : String := "screenshot"

/-- The default image format. -/
def extPng : String := "png"

/-- A capture timestamp, second resolution. -/
def tsSame : String := "20250101_120000"

/-- The file saved by the capture with sequence number 9. -/
def fileSeq9 : String := mkFilename pfxShot tsSame 9 extPng

/-- The file saved by the capture with sequence number 10, taken within the
same second. -/
def fileSeq10 : String := mkFilename pfxShot tsSame 10 extPng

/-! # Theorems -/

/-- Helper: the list comprehension over an array of objects succeeds and
keeps one entry per object whenever every object has a name, regardless of
any calories field. -/
theorem extractNames_of_names_present (objs : List (List (String × JValue)))
    (h : ∀ o ∈ objs, (dictGet o kName).isSome = true) :
    ∃ ns, extractNames (JValue.arr (objs.map JValue.obj)) = some ns ∧
      ns.length = objs.length := by
  induction objs with
  | nil => exact ⟨[], rfl, rfl⟩
  | cons o rest ih =>
    obtain ⟨ns, hns, hlen⟩ := ih (fun o ho => h o (List.mem_cons_of_mem _ ho))
    obtain ⟨v, hv⟩ := Option.isSome_iff_exists.mp (h o (List.mem_cons_self _ _))
    refine ⟨v :: ns, ?_, by simp [hlen]⟩
    simp only [extractNames, pyIter, Option.bind_eq_bind, Option.some_bind,
      List.map_cons] at hns ⊢
    simp only [subscrAll, pySubscr, hv, Option.bind_eq_bind, Option.some_bind,
      hns]
    rfl

/-- C1: for every reply text, the extraction step is total — every exception
inside it is caught by the enclosing handler, so the caller always receives a
record (in this embedding `extract` is a total function into `PyResult`) —
and the record is well-formed: an error detail is present exactly on
error-status records, and whenever the reply does not report detected food
the item list is empty and the reported calories are zero. -/
theorem c1_extractor_total_wellformed (fname text : String) :
    ((extract fname text).status = Status.error ↔
      ((extract fname text).errorDetail).isSome = true) ∧
    (foodDetected text = false →
      (extract fname text).food_items = [] ∧
      (extract fname text).calories = JValue.int 0 ∧
      (extract fname text).detailed_items = JValue.arr []) := by
  unfold extract foodDetected
  cases hb : braceSpan text with
  | none => simp [canonicalResult]
  | some span =>
    cases hj : jsonParse span with
    | none => simp [hj, errorResult]
    | some v =>
      cases v
      case obj fields =>
        by_cases h : truthy (dictGetD fields kFoodDetected (JValue.bool false))
        · cases hn : extractNames (dictGetD fields kFoodItems (JValue.arr [])) with
          | none => simp [hj, h, hn, errorResult]
          | some ns => simp [hj, h, hn]
        · simp [hj, h, canonicalResult]
      all_goals simp [hj, errorResult]

/-- Witness for C1 at the sample no-food reply. -/
theorem c1_witness :
    foodDetected textNoFood = false ∧
    ((extract imgName textNoFood).food_items = [] ∧
     (extract imgName textNoFood).calories = JValue.int 0 ∧
     (extract imgName textNoFood).detailed_items = JValue.arr []) :=
  ⟨rfl, (c1_extractor_total_wellformed imgName textNoFood).2 rfl⟩

/-- Counterexample to C2: on a reply whose brace span exists but fails to
parse, extraction returns an error-status record, not the canonical
no-food success result the claim demands. -/
theorem c2_counterexample :
    braceSpan textBadSpan = some textBadSpan ∧
    jsonParse textBadSpan = none ∧
    (extract imgName textBadSpan).status = Status.error ∧
    extract imgName textBadSpan ≠ canonicalResult imgName := by
  refine ⟨rfl, rfl, rfl, fun h => ?_⟩
  have h2 : (extract imgName textBadSpan).status = Status.error := rfl
  rw [h] at h2
  simp [canonicalResult] at h2

/-- C2 as amended: when no brace span exists, or the payload parses but does
not report detected food (in particular when `food_detected` is missing),
extraction returns the canonical no-food success result; but when the span
exists and fails to parse, the raised decode error is caught by the outer
handler and extraction returns an error-status record instead. -/
theorem c2_amended (fname text : String) :
    (braceSpan text = none → extract fname text = canonicalResult fname) ∧
    (∀ span, braceSpan text = some span → jsonParse span = none →
      extract fname text = errorResult fname msgJsonDecode) ∧
    (∀ span fields, braceSpan text = some span →
      jsonParse span = some (JValue.obj fields) →
      truthy (dictGetD fields kFoodDetected (JValue.bool false)) = false →
      extract fname text = canonicalResult fname) := by
  refine ⟨fun h => ?_, fun span h1 h2 => ?_, fun span fields h1 h2 h3 => ?_⟩
  · simp [extract, h]
  · simp [extract, h1, h2]
  · simp [extract, h1, h2, h3]

/-- Witness for C2 (amended) at the spec's literal case 2. -/
theorem c2_witness :
    braceSpan textNoFood = none ∧
    extract imgName textNoFood = canonicalResult imgName :=
  ⟨rfl, (c2_amended imgName textNoFood).1 rfl⟩

/-- Counterexample to C3: on the claim's literal input the item whose
calories field is missing is NOT dropped — it is kept in the returned item
list (and in the detailed items) — while the total is preserved and the
status is success. -/
theorem c3_counterexample :
    (extract imgName textSoup).food_items = [JValue.str nameSoup] ∧
    (extract imgName textSoup).food_items ≠ [] ∧
    (extract imgName textSoup).calories = JValue.int 120 ∧
    (extract imgName textSoup).detailed_items =
      JValue.arr [JValue.obj [(kName, JValue.str nameSoup)]] ∧
    (extract imgName textSoup).status = Status.success := by
  refine ⟨rfl, ?_, rfl, rfl, rfl⟩
  have h0 : (extract imgName textSoup).food_items = [JValue.str nameSoup] := rfl
  rw [h0]
  simp

/-- C3 as amended: an items entry missing a calories field is kept, not
dropped — whenever the payload reports food and every entry carries a name,
the result is a success whose item list has one name per entry and whose
total is the payload's total, regardless of which entries carry calories.
On the literal input, the item and the total 120 both survive. -/
theorem c3_amended (fname text span : String)
    (fields : List (String × JValue)) (itemsObjs : List (List (String × JValue)))
    (h1 : braceSpan text = some span)
    (h2 : jsonParse span = some (JValue.obj fields))
    (h3 : truthy (dictGetD fields kFoodDetected (JValue.bool false)) = true)
    (h4 : dictGetD fields kFoodItems (JValue.arr []) =
      JValue.arr (itemsObjs.map JValue.obj))
    (h5 : ∀ o ∈ itemsObjs, (dictGet o kName).isSome = true) :
    (extract fname text).status = Status.success ∧
    (extract fname text).food_items.length = itemsObjs.length ∧
    (extract fname text).calories = dictGetD fields kTotalCalories (JValue.int 0) := by
  obtain ⟨ns, hns, hlen⟩ := extractNames_of_names_present itemsObjs h5
  rw [← h4] at hns
  simp [extract, h1, h2, h3, hns, hlen]

/-- Witness for C3 (amended) at the spec's literal case 3. -/
theorem c3_witness :
    (braceSpan textSoup = some textSoup ∧
     jsonParse textSoup = some (JValue.obj soupFields) ∧
     truthy (dictGetD soupFields kFoodDetected (JValue.bool false)) = true ∧
     dictGetD soupFields kFoodItems (JValue.arr []) =
       JValue.arr ([[(kName, JValue.str nameSoup)]].map JValue.obj) ∧
     (∀ o ∈ [[(kName, JValue.str nameSoup)]], (dictGet o kName).isSome = true)) ∧
    ((extract imgName textSoup).status = Status.success ∧
     (extract imgName textSoup).food_items.length = 1 ∧
     (extract imgName textSoup).calories =
       dictGetD soupFields kTotalCalories (JValue.int 0)) :=
  ⟨⟨rfl, rfl, rfl, rfl, by decide⟩,
   c3_amended imgName textSoup textSoup soupFields [[(kName, JValue.str nameSoup)]]
     rfl rfl rfl rfl (by decide)⟩

/-- Counterexample to C4: on a successfully parsed payload carrying negative
calorie values, the returned record carries the negative total and the
negative per-item value unchanged — nothing is clamped to zero. -/
theorem c4_counterexample :
    (extract imgName textNegative).calories = JValue.int (-50) ∧
    (-50 : Int) < 0 ∧
    (extract imgName textNegative).detailed_items =
      JValue.arr [JValue.obj [(kName, JValue.str ("mystery")),
                              (kCalories, JValue.int (-50))]] ∧
    (extract imgName textNegative).status = Status.success := by
  exact ⟨rfl, by norm_num, rfl, rfl⟩

/-- C4 as amended: extraction performs no clamping at all — whenever the
payload reports food and the item list is readable, the reported total
calories value is returned verbatim, negative values included. -/
theorem c4_amended (fname text span : String)
    (fields : List (String × JValue)) (ns : List JValue) (total : Int)
    (h1 : braceSpan text = some span)
    (h2 : jsonParse span = some (JValue.obj fields))
    (h3 : truthy (dictGetD fields kFoodDetected (JValue.bool false)) = true)
    (h4 : extractNames (dictGetD fields kFoodItems (JValue.arr [])) = some ns)
    (h5 : dictGetD fields kTotalCalories (JValue.int 0) = JValue.int total) :
    (extract fname text).calories = JValue.int total := by
  simp [extract, h1, h2, h3, h4, h5]

/-- Witness for C4 (amended) at the negative-calories sample. -/
theorem c4_witness :
    (braceSpan textNegative = some textNegative ∧
     jsonParse textNegative = some (JValue.obj negFields) ∧
     truthy (dictGetD negFields kFoodDetected (JValue.bool false)) = true ∧
     extractNames (dictGetD negFields kFoodItems (JValue.arr [])) =
       some [JValue.str ("mystery")] ∧
     dictGetD negFields kTotalCalories (JValue.int 0) = JValue.int (-50)) ∧
    (extract imgName textNegative).calories = JValue.int (-50) :=
  ⟨⟨rfl, rfl, rfl, rfl, rfl⟩,
   c4_amended imgName textNegative textNegative negFields [JValue.str ("mystery")]
     (-50) rfl rfl rfl rfl rfl⟩

/-- Counterexample to C5's clamping clause: with interval 10 and a first
capture taking 15 seconds, the computed sleep is 5, not 0 — the scheduler
waits for the next grid point instead of running back-to-back. -/
theorem c5_counterexample : sleep_time 10 15 = 5 ∧ (5 : ℚ) ≠ 0 := by
  constructor
  · have h : ⌊(15 : ℚ) / 10⌋ = 1 := by
      rw [Int.floor_eq_iff]
      norm_num
    unfold sleep_time pyFmod
    rw [h]
    norm_num
  · norm_num

/-- C5 as amended: after every capture the sleep equals
`interval - (elapsed mod interval)` (the `max` with 0 never engages), it is
never negative — in fact strictly positive — it never exceeds the interval,
and it lands the next capture exactly on the next multiple of the interval
measured from the fixed reference start, so latency does not accumulate
drift; but when capture latency exceeds the interval the sleep is NOT
clamped to zero — the missed grid points are skipped and the scheduler
still pauses until the next one. -/
theorem c5_amended (T elapsed : ℚ) (hT : 0 < T) :
    sleep_time T elapsed = T - pyFmod elapsed T ∧
    0 < sleep_time T elapsed ∧
    sleep_time T elapsed ≤ T ∧
    elapsed + sleep_time T elapsed = T * (⌊elapsed / T⌋ + 1) := by
  have hfract : pyFmod elapsed T = T * Int.fract (elapsed / T) := by
    unfold pyFmod
    rw [Int.fract]
    field_simp
  have h0 : 0 ≤ pyFmod elapsed T := by
    rw [hfract]
    exact mul_nonneg hT.le (Int.fract_nonneg _)
  have h1 : pyFmod elapsed T < T := by
    rw [hfract]
    calc T * Int.fract (elapsed / T) < T * 1 :=
          (mul_lt_mul_left hT).mpr (Int.fract_lt_one _)
    _ = T := mul_one T
  have hs : sleep_time T elapsed = T - pyFmod elapsed T :=
    max_eq_right (by linarith)
  refine ⟨hs, by rw [hs]; linarith, by rw [hs]; linarith, ?_⟩
  rw [hs]
  unfold pyFmod
  ring

/-- Witness for C5 (amended) at interval 10 and elapsed time 15. -/
theorem c5_witness :
    (0 : ℚ) < 10 ∧
    (sleep_time 10 15 = 10 - pyFmod 15 10 ∧
     0 < sleep_time 10 15 ∧
     sleep_time 10 15 ≤ 10 ∧
     (15 : ℚ) + sleep_time 10 15 = 10 * (⌊(15 : ℚ) / 10⌋ + 1)) :=
  ⟨by norm_num, c5_amended 10 15 (by norm_num)⟩

/-- Helper: the sequence numbers produced from counter `c` are `c`, `c+1`,
… in order, one per successful tick. -/
theorem runTicks_eq (oks : List Bool) (c : Nat) :
    runTicks c oks = (List.range (oks.count true)).map (fun i => c + i) := by
  induction oks generalizing c with
  | nil => simp [runTicks]
  | cons ok rest ih =>
    cases ok with
    | false => simp [runTicks, take_screenshot, ih]
    | true =>
      have hstep : runTicks c (true :: rest) = c :: runTicks (c + 1) rest := rfl
      have hc : (true :: rest).count true = rest.count true + 1 := by simp
      rw [hstep, ih, hc, List.range_succ_eq_map, List.map_cons, List.map_map]
      simp only [Nat.add_zero]
      congr 1
      apply List.map_congr_left
      intro i _
      simp [Function.comp_def]
      omega

/-- C6: over any sequence of capture ticks, the successfully saved files
carry exactly the sequence numbers `0, 1, 2, …` — strictly increasing with
no gaps — while a failed capture is a skipped tick: it leaves the counter
untouched, produces no file, and the loop simply continues with the
remaining ticks. -/
theorem c6_sequence_monotonic (oks rest : List Bool) (c : Nat) :
    runTicks 0 oks = List.range (oks.count true) ∧
    (runTicks 0 oks).Pairwise (· < ·) ∧
    take_screenshot c false = (c, none) ∧
    runTicks c (false :: rest) = runTicks c rest := by
  have h : runTicks 0 oks = List.range (oks.count true) := by
    simpa using runTicks_eq oks 0
  exact ⟨h, by rw [h]; exact List.pairwise_lt_range _, rfl, rfl⟩

/-- Helper: the batch loop processes a concatenation segment by segment,
aborting as soon as a segment aborts. -/
theorem analyze_all_append (xs ys : List (String × Except String String)) :
    analyze_all (xs ++ ys) =
      match analyze_all xs with
      | Except.error e => Except.error e
      | Except.ok l1 =>
        match analyze_all ys with
        | Except.error e => Except.error e
        | Except.ok l2 => Except.ok (l1 ++ l2) := by
  induction xs with
  | nil =>
    simp only [List.nil_append, analyze_all]
    cases analyze_all ys <;> simp
  | cons x rest ih =>
    obtain ⟨fname, reply⟩ := x
    simp only [List.cons_append, analyze_all]
    cases printCheck (analyze_one fname reply) with
    | error e => rfl
    | ok _ =>
      dsimp only
      rw [show rest.append ys = rest ++ ys from rfl, ih]
      cases analyze_all rest with
      | error e => rfl
      | ok l1 =>
        cases analyze_all ys with
        | error e => rfl
        | ok l2 => rfl

/-- C7: a per-image analysis failure is absorbed by the per-image handler —
the batch record for that image has error status and carries the failure
detail — and the batch loop around it is undisturbed: processing a batch
with a failing image in the middle analyzes the prefix and the suffix
exactly as it would without interruption, inserting the single error record
in place; the failing image can never be the cause of an aborted batch. -/
theorem c7_failure_isolated (pre post : List (String × Except String String))
    (fname e : String) :
    analyze_one fname (Except.error e) = errorResult fname e ∧
    (errorResult fname e).status = Status.error ∧
    (errorResult fname e).errorDetail = some e ∧
    analyze_all (pre ++ (fname, Except.error e) :: post) =
      (match analyze_all pre with
       | Except.error e1 => Except.error e1
       | Except.ok l1 =>
         match analyze_all post with
         | Except.error e2 => Except.error e2
         | Except.ok l2 => Except.ok (l1 ++ errorResult fname e :: l2)) := by
  refine ⟨rfl, rfl, rfl, ?_⟩
  have hmid : analyze_all ((fname, Except.error e) :: post) =
      match analyze_all post with
      | Except.error e2 => Except.error e2
      | Except.ok l2 => Except.ok (errorResult fname e :: l2) := rfl
  rw [analyze_all_append, hmid]
  cases analyze_all pre with
  | error e1 => rfl
  | ok l1 =>
    cases analyze_all post with
    | error e2 => rfl
    | ok l2 => rfl

/-- Helper: summing integer calories never raises and yields the integer
sum. -/
theorem sumCalories_int (results : List PyResult) (cs : List Int) (a : Int)
    (h : results.map (fun r => r.calories) = cs.map JValue.int) :
    sumCalories results (JValue.int a) = some (JValue.int (a + cs.sum)) := by
  induction results generalizing cs a with
  | nil =>
    cases cs with
    | nil => simp [sumCalories]
    | cons c cs' => simp at h
  | cons r rest ih =>
    cases cs with
    | nil => simp at h
    | cons c cs' =>
      simp only [List.map_cons, List.cons.injEq] at h
      obtain ⟨h1, h2⟩ := h
      simp only [sumCalories, h1, pyAdd, Option.bind_eq_bind, Option.some_bind]
      rw [ih cs' (a + c) h2]
      congr 1
      simp only [List.sum_cons]
      congr 1
      ring

/-- Helper: counting food images over integer calories never raises and
counts the positive entries. -/
theorem countFood_int (results : List PyResult) (cs : List Int)
    (h : results.map (fun r => r.calories) = cs.map JValue.int) :
    countFood results = some (cs.countP (fun c => decide (0 < c))) := by
  induction results generalizing cs with
  | nil =>
    cases cs with
    | nil => simp [countFood]
    | cons c cs' => simp at h
  | cons r rest ih =>
    cases cs with
    | nil => simp at h
    | cons c cs' =>
      simp only [List.map_cons, List.cons.injEq] at h
      obtain ⟨h1, h2⟩ := h
      simp only [countFood, h1, pyGtZero, Option.bind_eq_bind, Option.some_bind]
      rw [ih cs' h2]
      by_cases hc : 0 < c
      · simp [hc, List.countP_cons, Nat.add_comm]
      · simp [hc, List.countP_cons]

/-- C8: on any batch whose records carry integer calorie values, the summary
reports the number of records, the count of records with positive calories,
and the plain sum of all the calorie values (error records contribute their
zero calories to the sum and are not counted as food). -/
theorem c8_batch_aggregation (results : List PyResult) (cs : List Int)
    (h : results.map (fun r => r.calories) = cs.map JValue.int) :
    print_calorie_report results =
      some (cs.length, cs.countP (fun c => decide (0 < c)), JValue.int cs.sum) := by
  have hlen : results.length = cs.length := by
    have := congrArg List.length h
    simpa using this
  simp only [print_calorie_report, Option.bind_eq_bind]
  rw [sumCalories_int results cs 0 h]
  simp only [Option.some_bind]
  rw [countFood_int results cs h]
  simp [hlen]

/-- Witness for C8: the claim's literal batch — calories 0, 120 and 300 plus
one error record — reports 4 images analyzed, 2 food images, 420 total
calories. -/
theorem c8_witness :
    sampleBatchResults.map (fun r => r.calories) =
      ([0, 120, 300, 0] : List Int).map JValue.int ∧
    print_calorie_report sampleBatchResults =
      some (4, 2, JValue.int 420) :=
  ⟨rfl, c8_batch_aggregation sampleBatchResults [0, 120, 300, 0] rfl⟩

/-- Counterexample to C9: with both scheduler threads still running, the
stop handler exits the process at once — neither thread has confirmed
termination when the Stopped state (process exit) is entered, and no final
counts are reported. -/
theorem c9_counterexample :
    (signal_handler runningState).process_exited = true ∧
    (signal_handler runningState).screenshot_thread_done = false ∧
    (signal_handler runningState).analysis_thread_done = false ∧
    (signal_handler runningState).final_counts_reported = false := by
  exact ⟨rfl, rfl, rfl, rfl⟩

/-- C9 as amended: on the operator stop signal the coordinator sets the
shared cancellation signal and exits the process immediately — it does not
wait for either scheduler unit to observe the signal and return (the daemon
threads' completion flags are left untouched), and it reports no final
counts. -/
theorem c9_amended (s : CoordState) :
    (signal_handler s).stop_event = true ∧
    (signal_handler s).process_exited = true ∧
    (signal_handler s).screenshot_thread_done = s.screenshot_thread_done ∧
    (signal_handler s).analysis_thread_done = s.analysis_thread_done ∧
    (signal_handler s).final_counts_reported = s.final_counts_reported := by
  exact ⟨rfl, rfl, rfl, rfl, rfl⟩

/-! ## Order lemmas for filenames -/

/-- String concatenation concatenates the character lists. -/
theorem data_append (s t : String) : (s ++ t).data = s.data ++ t.data := rfl

/-- The characters of a built string. -/
theorem data_mk (l : List Char) : (String.mk l).data = l := rfl

/-- The string order is the lexicographic order on the character lists. -/
theorem strLt_iff (s t : String) :
    s < t ↔ List.Lex (· < ·) s.data t.data :=
  String.lt_iff_toList_lt.trans Iff.rfl

/-- Lexicographic comparison is irreflexive. -/
theorem lex_irrefl (l : List Char) : ¬ List.Lex (· < ·) l l := by
  induction l with
  | nil => exact List.Lex.not_nil_right _ _
  | cons x xs ih =>
    intro h
    cases h with
    | cons h2 => exact ih h2
    | rel h2 => exact lt_irrefl _ h2

/-- A shared prefix does not affect lexicographic comparison. -/
theorem lex_append_left_iff (p a b : List Char) :
    List.Lex (· < ·) (p ++ a) (p ++ b) ↔ List.Lex (· < ·) a b := by
  induction p with
  | nil => simp
  | cons c p ih =>
    simp only [List.cons_append]
    rw [List.Lex.cons_iff]
    exact ih

/-- Two unequal lists of the same length decide the comparison of anything
appended after them. -/
theorem lex_append_of_ne :
    ∀ a b s t : List Char, a.length = b.length → a ≠ b →
      (List.Lex (· < ·) (a ++ s) (b ++ t) ↔ List.Lex (· < ·) a b)
  | [], [], _, _, _, hne => absurd rfl hne
  | [], _ :: _, _, _, hlen, _ => by simp at hlen
  | _ :: _, [], _, _, hlen, _ => by simp at hlen
  | x :: xs, y :: ys, s, t, hlen, hne => by
    have hlen' : xs.length = ys.length := by simpa using hlen
    by_cases hxy : x = y
    · subst hxy
      have hne' : xs ≠ ys := fun h => hne (by rw [h])
      simp only [List.cons_append]
      rw [List.Lex.cons_iff, List.Lex.cons_iff]
      exact lex_append_of_ne xs ys s t hlen' hne'
    · constructor
      · intro h
        cases h with
        | cons h2 => exact absurd rfl hxy
        | rel h2 => exact List.Lex.rel h2
      · intro h
        cases h with
        | cons h2 => exact absurd rfl hxy
        | rel h2 => exact List.Lex.rel h2

/-- Comparison of equal-length lists extended by one final element. -/
theorem lex_append_last (a b : List Char) (x y : Char)
    (hlen : a.length = b.length) :
    (List.Lex (· < ·) (a ++ [x]) (b ++ [y]) ↔
      List.Lex (· < ·) a b ∨ (a = b ∧ x < y)) := by
  by_cases hab : a = b
  · subst hab
    rw [lex_append_left_iff]
    constructor
    · intro h
      exact Or.inr ⟨rfl, (List.Lex.singleton_iff _ _).mp h⟩
    · rintro (h | ⟨-, h⟩)
      · exact absurd h (lex_irrefl a)
      · exact (List.Lex.singleton_iff _ _).mpr h
  · rw [lex_append_of_ne a b _ _ hlen hab]
    simp [hab]

/-- Digit characters compare as the digits themselves. -/
theorem digitChar_lt_iff (a b : Nat) (ha : a < 10) (hb : b < 10) :
    (digitChar a < digitChar b) ↔ a < b := by
  interval_cases a <;> interval_cases b <;> decide

/-- Digit characters are distinct for distinct digits. -/
theorem digitChar_inj (a b : Nat) (ha : a < 10) (hb : b < 10) :
    digitChar a = digitChar b → a = b := by
  interval_cases a <;> interval_cases b <;> decide

/-- The fuel argument is irrelevant once it exceeds the number. -/
theorem natDigitsAux_eq (f1 f2 n : Nat) (h1 : n < f1) (h2 : n < f2) :
    natDigitsAux f1 n = natDigitsAux f2 n := by
  induction f1 generalizing f2 n with
  | zero => omega
  | succ f ih =>
    cases f2 with
    | zero => omega
    | succ g =>
      simp only [natDigitsAux]
      by_cases h : n < 10
      · simp [h]
      · have hdiv : n / 10 < n := Nat.div_lt_self (by omega) (by norm_num)
        simp only [h, if_false]
        rw [ih g (n / 10) (by omega) (by omega)]

/-- The recursion satisfied by the decimal rendering. -/
theorem natDigits_unfold (n : Nat) :
    natDigits n = if n < 10 then [digitChar n]
      else natDigits (n / 10) ++ [digitChar (n % 10)] := by
  unfold natDigits
  by_cases h : n < 10
  · simp [natDigitsAux, h]
  · have hdiv : n / 10 < n := Nat.div_lt_self (by omega) (by norm_num)
    simp only [natDigitsAux, h, if_false]
    congr 1
    exact natDigitsAux_eq n (n / 10 + 1) (n / 10) (by omega) (by omega)

/-- One digit for numbers below ten. -/
theorem natDigits_lt10 (n : Nat) (h : n < 10) : natDigits n = [digitChar n] := by
  rw [natDigits_unfold]
  simp [h]

/-- Leading digits and final digit for numbers of ten or more. -/
theorem natDigits_ge10 (n : Nat) (h : 10 ≤ n) :
    natDigits n = natDigits (n / 10) ++ [digitChar (n % 10)] := by
  rw [natDigits_unfold]
  simp [Nat.not_lt.mpr h]

/-- A decimal rendering is never empty. -/
theorem natDigits_ne_nil (n : Nat) : natDigits n ≠ [] := by
  rw [natDigits_unfold]
  by_cases h : n < 10 <;> simp [h]

/-- The decimal rendering is injective. -/
theorem natDigits_inj (m : Nat) : ∀ n, natDigits m = natDigits n → m = n := by
  induction m using Nat.strong_induction_on with
  | _ m ih =>
    intro n he
    by_cases hm : m < 10 <;> by_cases hn : n < 10
    · rw [natDigits_lt10 _ hm, natDigits_lt10 _ hn] at he
      exact digitChar_inj m n hm hn (by simpa using he)
    · exfalso
      rw [natDigits_lt10 _ hm, natDigits_ge10 _ (Nat.le_of_not_lt hn)] at he
      have hlen := congrArg List.length he
      simp only [List.length_singleton, List.length_append, List.length_cons,
        List.length_nil] at hlen
      have hz : (natDigits (n / 10)).length = 0 := by omega
      exact natDigits_ne_nil _ (List.length_eq_zero.mp hz)
    · exfalso
      rw [natDigits_ge10 _ (Nat.le_of_not_lt hm), natDigits_lt10 _ hn] at he
      have hlen := congrArg List.length he
      simp only [List.length_singleton, List.length_append, List.length_cons,
        List.length_nil] at hlen
      have hz : (natDigits (m / 10)).length = 0 := by omega
      exact natDigits_ne_nil _ (List.length_eq_zero.mp hz)
    · rw [natDigits_ge10 _ (Nat.le_of_not_lt hm),
        natDigits_ge10 _ (Nat.le_of_not_lt hn)] at he
      obtain ⟨hd, ht⟩ := List.append_inj' he rfl
      have hdiv : m / 10 < m := Nat.div_lt_self (by omega) (by norm_num)
      have h1 : m / 10 = n / 10 := ih (m / 10) hdiv (n / 10) hd
      have h2 : m % 10 = n % 10 :=
        digitChar_inj _ _ (Nat.mod_lt _ (by norm_num)) (Nat.mod_lt _ (by norm_num))
          (by simpa using ht)
      omega

/-- For equal digit counts, decimal renderings compare lexicographically
exactly as the numbers compare. -/
theorem natDigits_lt_iff (m : Nat) :
    ∀ n, (natDigits m).length = (natDigits n).length →
      (List.Lex (· < ·) (natDigits m) (natDigits n) ↔ m < n) := by
  induction m using Nat.strong_induction_on with
  | _ m ih =>
    intro n hlen
    by_cases hm : m < 10 <;> by_cases hn : n < 10
    · rw [natDigits_lt10 _ hm, natDigits_lt10 _ hn]
      rw [List.Lex.singleton_iff]
      exact digitChar_lt_iff _ _ hm hn
    · exfalso
      rw [natDigits_lt10 _ hm, natDigits_ge10 _ (Nat.le_of_not_lt hn)] at hlen
      simp only [List.length_singleton, List.length_append, List.length_cons,
        List.length_nil] at hlen
      have hz : (natDigits (n / 10)).length = 0 := by omega
      exact natDigits_ne_nil _ (List.length_eq_zero.mp hz)
    · exfalso
      rw [natDigits_ge10 _ (Nat.le_of_not_lt hm), natDigits_lt10 _ hn] at hlen
      simp only [List.length_singleton, List.length_append, List.length_cons,
        List.length_nil] at hlen
      have hz : (natDigits (m / 10)).length = 0 := by omega
      exact natDigits_ne_nil _ (List.length_eq_zero.mp hz)
    · have hm10 := Nat.le_of_not_lt hm
      have hn10 := Nat.le_of_not_lt hn
      rw [natDigits_ge10 _ hm10, natDigits_ge10 _ hn10] at hlen ⊢
      have hlen' : (natDigits (m / 10)).length = (natDigits (n / 10)).length := by
        simp only [List.length_append, List.length_cons, List.length_nil] at hlen
        omega
      rw [lex_append_last _ _ _ _ hlen']
      have hdiv : m / 10 < m := Nat.div_lt_self (by omega) (by norm_num)
      rw [ih (m / 10) hdiv (n / 10) hlen',
        digitChar_lt_iff _ _ (Nat.mod_lt _ (by norm_num)) (Nat.mod_lt _ (by norm_num))]
      constructor
      · rintro (h | ⟨heq, h⟩)
        · omega
        · have : m / 10 = n / 10 := natDigits_inj _ _ heq
          omega
      · intro h
        by_cases hq : m / 10 = n / 10
        · exact Or.inr ⟨by rw [hq], by omega⟩
        · exact Or.inl (by omega)

/-- The characters of a screenshot filename, grouped for comparison. -/
theorem mkFilename_data (pfx ts : String) (seq : Nat) (ext : String) :
    (mkFilename pfx ts seq ext).data =
      pfx.data ++ '_' :: (ts.data ++ '_' :: (natDigits seq ++ '.' :: ext.data)) := by
  simp [mkFilename, data_append, data_mk, List.append_assoc]

/-- Counterexample to C10: two captures within the same second with
sequence numbers 9 and 10 produce filenames whose lexicographic order
inverts the capture order — the unpadded counter makes the seq-10 file sort
(and be listed by the batch scan) before the seq-9 file. -/
theorem c10_counterexample :
    (9 : Nat) < 10 ∧
    fileSeq10 < fileSeq9 ∧
    ¬ fileSeq9 < fileSeq10 ∧
    pySorted [fileSeq9, fileSeq10] = [fileSeq10, fileSeq9] := by
  refine ⟨by norm_num, ?_, ?_, rfl⟩
  · rw [String.lt_iff_toList_lt]
    decide
  · rw [String.lt_iff_toList_lt]
    decide

/-- C10 as amended: filename order equals capture order in the unbroken
cases — when the fixed-width timestamps differ, filenames compare as the
timestamps do; and when the timestamps coincide and the two sequence
numbers render with the same number of digits, filenames compare as the
sequence numbers do.  (With equal timestamps and different digit counts the
order can invert, as the counterexample shows.) -/
theorem c10_amended (pfx ext ts ts1 ts2 : String) (s1 s2 : Nat) :
    (ts1.length = ts2.length → ts1 ≠ ts2 →
      (mkFilename pfx ts1 s1 ext < mkFilename pfx ts2 s2 ext ↔ ts1 < ts2)) ∧
    ((natDigits s1).length = (natDigits s2).length →
      (mkFilename pfx ts s1 ext < mkFilename pfx ts s2 ext ↔ s1 < s2)) := by
  constructor
  · intro hlen hne
    rw [strLt_iff (mkFilename pfx ts1 s1 ext) (mkFilename pfx ts2 s2 ext),
      strLt_iff ts1 ts2, mkFilename_data, mkFilename_data,
      lex_append_left_iff, List.Lex.cons_iff]
    have hdlen : ts1.data.length = ts2.data.length := by
      rw [String.length_data, String.length_data]
      exact hlen
    have hdne : ts1.data ≠ ts2.data := fun h => hne (String.toList_inj.mp h)
    rw [lex_append_of_ne _ _ _ _ hdlen hdne]
  · intro hlen
    by_cases hs : s1 = s2
    · subst hs
      exact iff_of_false (lt_irrefl _) (lt_irrefl _)
    · rw [strLt_iff (mkFilename pfx ts s1 ext) (mkFilename pfx ts s2 ext),
        mkFilename_data, mkFilename_data, lex_append_left_iff,
        List.Lex.cons_iff, lex_append_left_iff, List.Lex.cons_iff]
      have hdne : natDigits s1 ≠ natDigits s2 := fun h => hs (natDigits_inj s1 s2 h)
      rw [lex_append_of_ne _ _ _ _ hlen hdne]
      exact natDigits_lt_iff s1 s2 hlen

/-- Witness for C10 (amended) at equal-digit-count sequence numbers 3 and 7
under the same timestamp. -/
theorem c10_witness :
    (natDigits 3).length = (natDigits 7).length ∧
    (mkFilename pfxShot tsSame 3 extPng < mkFilename pfxShot tsSame 7 extPng ↔
      3 < 7) :=
  ⟨rfl, (c10_amended pfxShot extPng tsSame tsSame tsSame 3 7).2 rfl⟩

end CalorieApp
